import Mathlib

/-!
Verification of the PDF-to-Anki Q&A extraction pipeline (`script.py`).

The script mines question/answer pairs from a paginated document, keeps them
in a resumable JSON ledger (`qa_data.json`) and syncs them into an Anki deck.
This file gives a shallow embedding of its pure core:

  * `break_down_page_into_parts` — the sentence chunker,
  * `extract_assistant_responses` — extraction of the model's assistant turn,
  * `extract_questions_and_answers` — the line-oriented Q&A parser,
  * `load_or_create_qa_file` / `save_qa_data` — the ledger load/persist pair
    (the filesystem is modelled as a map from paths to file contents, and a
    serialized ledger as a JSON value),
  * `add_new_cards_to_deck` — the watermark-driven deck synchronizer,
  * `runMain` — the orchestrator `main`, parameterized by the text-generation
    model (an arbitrary function) and the document page list.

Text is modelled as `List Char`.  Python `str.strip`, `str.split`, slicing
with a possibly negative start index, and the two marker regexes are each
translated operation by operation; Python truthiness of strings and of
`None`-able variables is made explicit wherever the script relies on it.
-/

/-- Character sequences; the model of Python `str` values. -/
abbrev Str := List Char

/-- The ASCII whitespace characters matched by Python `str.strip` and `\s`
(Unicode whitespace beyond ASCII is not modelled). -/
def isPySpace (c : Char) : Bool :=
  c == ' ' || c == '\t' || c == '\n' || c == '\r' || c == '\x0b' || c == '\x0c'

/-- Left part of Python `str.strip`: drop leading whitespace. -/
def lstrip (l : Str) : Str := l.dropWhile isPySpace

/-- Right part of Python `str.strip`: drop trailing whitespace. -/
def rstrip (l : Str) : Str := (l.reverse.dropWhile isPySpace).reverse

/-- Python `str.strip`: drop whitespace from both ends. -/
def pyStrip (l : Str) : Str := (rstrip l).dropWhile isPySpace

/-- `startsWith pat l` is true when `pat` is a prefix of `l`. -/
def startsWith : Str → Str → Bool
  | [], _ => true
  | _ :: _, [] => false
  | a :: as, b :: bs => a == b && startsWith as bs

/-- Auxiliary loop for `pySplit`, advancing one character per step so the
recursion is structural; the separator is `c0 :: sepRest` (so it is never
empty), `acc` holds the current piece reversed, and `skip > 0` means that
many characters of a just-matched separator are still to be consumed
(separator characters verified present by `startsWith`). -/
def pySplitGo (c0 : Char) (sepRest : Str) : Nat → Str → Str → List Str
  | 0, acc, [] => [acc.reverse]
  | 0, acc, c :: cs =>
    if startsWith (c0 :: sepRest) (c :: cs) then
      acc.reverse :: pySplitGo c0 sepRest sepRest.length [] cs
    else
      pySplitGo c0 sepRest 0 (c :: acc) cs
  | _ + 1, acc, [] => [acc.reverse]
  | skip + 1, acc, _ :: cs => pySplitGo c0 sepRest skip acc cs

/-- Python `str.split(sep)` for a non-empty separator: split on leftmost
non-overlapping occurrences of `sep`; `"".split(sep) = [""]`.  (Python raises
on an empty separator; the script only splits on `". "` and `"\n"`.) -/
def pySplit (sep : Str) (l : Str) : List Str :=
  match sep with
  | [] => [l]
  | c0 :: sepRest => pySplitGo c0 sepRest 0 [] l

/-- Python slicing `l[k:]` with an `int` start index `k`: a negative `k`
counts from the end of the list (clamped at 0). -/
def pySliceFrom (l : List α) (k : Int) : List α :=
  if 0 ≤ k then l.drop k.toNat
  else l.drop ((l.length : Int) + k).toNat

/-! ## Chunker: `break_down_page_into_parts` (script.py lines 110-121) -/

/-- The chunker loop: `current` is the running buffer, `parts` the output so
far.  Appending a sentence is guarded by `len(current) + len(sentence) + 1 ≤
part_size`, but appending adds the sentence plus the two-character delimiter
`". "`; a closed buffer is emitted stripped. -/
def breakDownLoop (limit : Nat) : List Str → Str → List Str → List Str
  | [], current, parts =>
      if current = [] then parts else parts ++ [pyStrip current]
  | s :: rest, current, parts =>
      if current.length + s.length + 1 ≤ limit then
        breakDownLoop limit rest (current ++ s ++ ". ".data) parts
      else
        breakDownLoop limit rest (s ++ ". ".data) (parts ++ [pyStrip current])

/-- `break_down_page_into_parts(text, part_size=500)`: split on the literal
sentence delimiter `". "` and greedily pack sentences into parts. -/
def break_down_page_into_parts (text : Str) (part_size : Nat := 500) : List Str :=
  breakDownLoop part_size (pySplit ". ".data text) [] []

/-! ## Turn extraction: `extract_assistant_responses` (script.py lines 123-132)

The regex is `<\|assistant\|>(.*?)(?=<\|system\|>|<\|user\|>|$)` with
`re.DOTALL`: a lazy capture after an assistant marker that stops at a
lookahead for `<|system|>`, `<|user|>` or end of string.  Note the lookahead
does not include `<|assistant|>` itself. -/

/-- The lookahead of the assistant regex: the remaining text starts with a
system or user marker. -/
def roleStop (t : Str) : Bool :=
  startsWith "<|system|>".data t || startsWith "<|user|>".data t

/-- `re.findall` of the assistant pattern as a single left-to-right scan,
one character per step (exactly how the regex engine advances).  `skip > 0`
means that many characters of a just-matched `<|assistant|>` marker are
still to be consumed; `st = some cap` means a lazy capture is in progress
with `cap` holding its characters reversed.  A capture closes at the
lookahead (`<|system|>`, `<|user|>`, consuming nothing) or at end of
string; searching then resumes at the very same position — where an
assistant marker cannot start, the markers being mutually exclusive, so the
scan just moves on by one character. -/
def scanSpans : Nat → Option Str → Str → List Str
  | _ + 1, some cap, [] => [cap.reverse]
  | _ + 1, none, [] => []
  | skip + 1, st, _ :: cs => scanSpans skip st cs
  | 0, none, [] => []
  | 0, none, c :: cs =>
    if startsWith "<|assistant|>".data (c :: cs) then
      scanSpans ("<|assistant|>".data.length - 1) (some []) cs
    else
      scanSpans 0 none cs
  | 0, some cap, [] => [cap.reverse]
  | 0, some cap, c :: cs =>
    if roleStop (c :: cs) then
      cap.reverse :: scanSpans 0 none cs
    else
      scanSpans 0 (some (c :: cap)) cs

/-- All matches of `<\|assistant\|>(.*?)(?=<\|system\|>|<\|user\|>|$)` with
`re.DOTALL`, in order. -/
def findSpans (t : Str) : List Str :=
  scanSpans 0 none t

/-- `extract_assistant_responses(text)`: strip each regex match, discard the
empty ones and return the first remaining span (or `none`). -/
def extract_assistant_responses (text : Str) : Option Str :=
  (((findSpans text).map pyStrip).filter (fun r => !r.isEmpty)).head?

/-! ## Q&A parsing: `extract_questions_and_answers` (script.py lines 134-178) -/

/-- One parsed question/answer pair. -/
structure QAPair where
  question : Str
  answer : Str
deriving DecidableEq, Repr

/-- Split on a single character (Python `text.split('\n')`). -/
def splitChar (sep : Char) : Str → List Str
  | [] => [[]]
  | c :: cs =>
    if c = sep then [] :: splitChar sep cs
    else
      match splitChar sep cs with
      | [] => [[c]]
      | h :: t => (c :: h) :: t

/-- The tail of the marker regexes `^(?:Question(?:\s*\d*)?:?\s*)(.*?)$` and
`^(?:Answer(?:\s*\d*)?:?\s*)(.*?)$` after the literal word: greedily consume
whitespace, then digits, then one optional colon, then whitespace; the rest
of the line is the capture group. -/
def consumeMarkerTail (r : Str) : Str :=
  let r1 := r.dropWhile isPySpace
  let r2 := r1.dropWhile Char.isDigit
  let r3 := match r2 with
    | ':' :: t => t
    | _ => r2
  r3.dropWhile isPySpace

/-- `re.match` of a marker pattern against a line, case-insensitively:
if the line starts with the marker word (given lowercase), return the
capture group, else `none`. -/
def matchQA (marker : Str) (line : Str) : Option Str :=
  if (line.take marker.length).map Char.toLower = marker then
    some (consumeMarkerTail (line.drop marker.length))
  else
    none

/-- Python truthiness of an optional string: `None` and the empty string are
falsy. -/
def truthy : Option Str → Bool
  | some (_ :: _) => true
  | _ => false

/-- The pair emitted when both `current_question` and `current_answer` are
truthy (`if current_question and current_answer:` in the script), both
stripped; otherwise nothing. -/
def emitIf (cq ca : Option Str) : List QAPair :=
  match cq, ca with
  | some (c :: q), some (d :: a) => [⟨pyStrip (c :: q), pyStrip (d :: a)⟩]
  | _, _ => []

/-- The line loop of `extract_questions_and_answers`: state is
`current_question`, `current_answer` and the accumulated pairs. -/
def qaLoop : List Str → Option Str → Option Str → List QAPair → List QAPair
  | [], cq, ca, acc => acc ++ emitIf cq ca
  | l :: rest, cq, ca, acc =>
    let line := pyStrip l
    if line = [] then qaLoop rest cq ca acc
    else
      match matchQA "question".data line with
      | some cap => qaLoop rest (some cap) none (acc ++ emitIf cq ca)
      | none =>
        match matchQA "answer".data line with
        | some cap => qaLoop rest cq (some cap) acc
        | none =>
          match ca with
          | some a => qaLoop rest cq (some (a ++ ' ' :: line)) acc
          | none =>
            if truthy cq then qaLoop rest cq (some line) acc
            else qaLoop rest cq none acc

/-- `extract_questions_and_answers(text)`: returns the `qa_pairs` list (an
empty input returns no pairs). -/
def extract_questions_and_answers (text : Str) : List QAPair :=
  if text = [] then [] else qaLoop (splitChar '\n' text) none none []

/-! ## Ledger data model (`qa_data.json`)

The script keeps the ledger as a raw JSON dict; we give it its typed shape.
`metadata.last_anki_card_index` is the deck watermark (`-1` = no card yet). -/

/-- One question/answer record as stored in `qa_pairs`. -/
structure QARecord where
  question : Str
  answer : Str
  page_number : Int
  part_number : Int
deriving DecidableEq, Repr

/-- The `metadata` object of the ledger. -/
structure Metadata where
  last_processed_page : Int
  total_pages_processed : Int
  total_questions : Int
  last_update : Str
  last_anki_card_index : Int
deriving DecidableEq, Repr

/-- The whole ledger: metadata plus the ordered record list. -/
structure Ledger where
  metadata : Metadata
  qa_pairs : List QARecord
deriving DecidableEq, Repr

/-- The fresh ledger built by `load_or_create_qa_file` when no valid file
exists (script.py lines 47-56): the resume offset is seeded to page 9. -/
def initial_data : Ledger :=
  { metadata := { last_processed_page := 9, total_pages_processed := 0,
                  total_questions := 0, last_update := [],
                  last_anki_card_index := -1 },
    qa_pairs := [] }

/-! ## JSON values and ledger (de)serialization

`json.dump` / `json.load` round-trip the dict through text.  We model the
relevant JSON fragment (strings, ints, arrays, objects) and the encoding of
a ledger into it; decoding interprets a parsed JSON value back as a typed
ledger (this is the representation boundary of the shallow embedding: the
Python code returns the parsed dict itself). -/

inductive Json where
  | str (s : Str)
  | int (n : Int)
  | arr (elems : List Json)
  | obj (fields : List (Str × Json))

/-- Look a key up in a JSON object's field list. -/
def jLookup (k : Str) : List (Str × Json) → Option Json
  | [] => none
  | (k2, v) :: t => if k2 = k then some v else jLookup k t

/-- Serialize one record (keys in the insertion order the script produces). -/
def encodeRecord (r : QARecord) : Json :=
  .obj [("question".data, .str r.question),
        ("answer".data, .str r.answer),
        ("page_number".data, .int r.page_number),
        ("part_number".data, .int r.part_number)]

/-- Serialize the metadata object. -/
def encodeMeta (m : Metadata) : Json :=
  .obj [("last_processed_page".data, .int m.last_processed_page),
        ("total_pages_processed".data, .int m.total_pages_processed),
        ("total_questions".data, .int m.total_questions),
        ("last_update".data, .str m.last_update),
        ("last_anki_card_index".data, .int m.last_anki_card_index)]

/-- Serialize the full ledger, as `json.dump` writes it. -/
def encodeLedger (L : Ledger) : Json :=
  .obj [("metadata".data, encodeMeta L.metadata),
        ("qa_pairs".data, .arr (L.qa_pairs.map encodeRecord))]

/-- Read one record back from JSON. -/
def decodeRecord (j : Json) : Option QARecord :=
  match j with
  | .obj fields =>
    match jLookup "question".data fields, jLookup "answer".data fields,
          jLookup "page_number".data fields, jLookup "part_number".data fields with
    | some (.str q), some (.str a), some (.int p), some (.int n) =>
        some ⟨q, a, p, n⟩
    | _, _, _, _ => none
  | _ => none

/-- Read a record array back from JSON. -/
def decodeRecList : List Json → Option (List QARecord)
  | [] => some []
  | j :: t =>
    match decodeRecord j, decodeRecList t with
    | some r, some rs => some (r :: rs)
    | _, _ => none

/-- Read the metadata object back from JSON. -/
def decodeMeta (j : Json) : Option Metadata :=
  match j with
  | .obj fields =>
    match jLookup "last_processed_page".data fields,
          jLookup "total_pages_processed".data fields,
          jLookup "total_questions".data fields,
          jLookup "last_update".data fields,
          jLookup "last_anki_card_index".data fields with
    | some (.int lpp), some (.int tpp), some (.int tq), some (.str lu), some (.int wm) =>
        some ⟨lpp, tpp, tq, lu, wm⟩
    | _, _, _, _, _ => none
  | _ => none

/-- Read a whole ledger back from JSON. -/
def decodeLedger (j : Json) : Option Ledger :=
  match j with
  | .obj fields =>
    match jLookup "metadata".data fields, jLookup "qa_pairs".data fields with
    | some mj, some (.arr rs) =>
      match decodeMeta mj, decodeRecList rs with
      | some m, some recs => some ⟨m, recs⟩
      | _, _ => none
    | _, _ => none
  | _ => none

/-! ## Filesystem model and the ledger load/persist pair -/

/-- Contents of a file on disk: either text that fails JSON parsing
(raising `json.JSONDecodeError`) or a parsed JSON value. -/
inductive FileContent where
  | corrupt
  | json (j : Json)

/-- The filesystem: a map from paths to file contents (`none` = no file). -/
def FS : Type := String → Option FileContent

/-- Point update of the filesystem. -/
def setFS (fs : FS) (p : String) (v : Option FileContent) : FS :=
  fun q => if q = p then v else fs q

/-- What `load_or_create_qa_file` hands back: a typed ledger, or — when the
file parses as JSON that is not ledger-shaped — the raw parsed value
(the script returns whatever `json.load` produced, unvalidated). -/
inductive LoadResult where
  | ledger (L : Ledger)
  | raw (j : Json)

/-- `load_or_create_qa_file(filename='qa_data.json')` (script.py lines
38-61): return the parsed file if it parses; on a missing or corrupt file,
write and return the fresh `initial_data` ledger.  Returns the result
together with the (possibly updated) filesystem. -/
def load_or_create_qa_file (fs : FS) (filename : String := "qa_data.json") :
    LoadResult × FS :=
  match fs filename with
  | some (.json j) =>
    match decodeLedger j with
    | some L => (.ledger L, fs)
    | none => (.raw j, fs)
  | some .corrupt =>
    (.ledger initial_data,
     setFS fs filename (some (.json (encodeLedger initial_data))))
  | none =>
    (.ledger initial_data,
     setFS fs filename (some (.json (encodeLedger initial_data))))

/-- Stamp `metadata.last_update` with the current time, as `save_qa_data`
does before serializing. -/
def stampTime (L : Ledger) (now : Str) : Ledger :=
  { L with metadata := { L.metadata with last_update := now } }

/-- `save_qa_data(data, filename='qa_data.json')` (script.py lines 180-189):
stamp `last_update`, serialize to `filename + '.tmp'`, then atomically
replace `filename` (`os.replace` removes the temporary file). -/
def save_qa_data (data : Ledger) (fs : FS) (filename : String := "qa_data.json")
    (now : Str := []) : FS :=
  let stamped := stampTime data now
  let tmp := filename ++ ".tmp"
  let fs1 := setFS fs tmp (some (.json (encodeLedger stamped)))
  fun q => if q = filename then fs1 tmp else if q = tmp then none else fs1 q

/-! ## Deck synchronizer: `add_new_cards_to_deck` (script.py lines 70-88) -/

/-- An Anki note: the three rendered fields question / answer / page number
as display text. -/
structure Note where
  question : Str
  answer : Str
  pageField : Str
deriving DecidableEq, Repr

/-- `genanki.Note(model=CHEMISTRY_MODEL, fields=[question, answer,
str(page_number)])`. -/
def mkNote (r : QARecord) : Note :=
  ⟨r.question, r.answer, (toString r.page_number).data⟩

/-- `add_new_cards_to_deck(deck, qa_data)`: slice the record list from
`last_anki_card_index + 1` (Python slicing, so a negative start counts from
the end), add one note per record, and advance the watermark to the
enumeration index of the last record added (`last + len(slice)`).  Returns
`(new_cards_added, deck, qa_data)`. -/
def add_new_cards_to_deck (deck : List Note) (qa_data : Ledger) :
    Nat × List Note × Ledger :=
  let last := qa_data.metadata.last_anki_card_index
  let sliced := pySliceFrom qa_data.qa_pairs (last + 1)
  let deck2 := deck ++ sliced.map mkNote
  let meta2 :=
    if sliced.length = 0 then qa_data.metadata
    else { qa_data.metadata with last_anki_card_index := last + (sliced.length : Int) }
  (sliced.length, deck2, { qa_data with metadata := meta2 })

/-! ## Orchestrator: `main` (script.py lines 191-285)

The text-generation model (`generate_questions` with the TinyLlama pipe) is
the external collaborator: it is passed in as an arbitrary function `gen`
from prompt part to generated transcript.  The document source is passed in
as the list of page texts (an empty list entry models an unextractable
page).  `save_deck` writes the package file and does not touch the state we
track; `save_qa_data`'s effect on the in-memory ledger (stamping
`last_update`) is applied at each call site. -/

/-- `main`'s per-page record append (script.py lines 236-246): each parsed
pair is stamped with `page_number` and `part_number` and extended onto
`qa_pairs`; then `last_processed_page` and `total_questions` are updated. -/
def appendRecords (L : Ledger) (stamped : List QARecord) (page_num : Int) : Ledger :=
  let L1 := { L with qa_pairs := L.qa_pairs ++ stamped }
  { L1 with metadata := { L1.metadata with
      last_processed_page := page_num,
      total_questions := (L1.qa_pairs.length : Int) } }

/-- `qa_data["metadata"]["last_processed_page"] = page_num`. -/
def setPage (L : Ledger) (p : Int) : Ledger :=
  { L with metadata := { L.metadata with last_processed_page := p } }

/-- `qa_data["metadata"]["total_pages_processed"] += 1`. -/
def incPagesProcessed (L : Ledger) : Ledger :=
  { L with metadata := { L.metadata with
      total_pages_processed := L.metadata.total_pages_processed + 1 } }

/-- One iteration of the part loop (script.py lines 225-261): run the model,
extract the assistant turn, parse Q&A; on ≥ 1 pair, stamp and append the
records, sync the deck and persist (stamping `last_update`).  Returns the
updated ledger, deck, and whether this part yielded pairs. -/
def processPart (gen : Str → Str) (now : Str) (page_num : Int) (part_index : Nat)
    (L : Ledger) (deck : List Note) (part : Str) : Ledger × List Note × Bool :=
  match extract_assistant_responses (gen part) with
  | none => (L, deck, false)
  | some response =>
    match extract_questions_and_answers response with
    | [] => (L, deck, false)
    | pairs =>
      let stamped := pairs.map
        (fun p => QARecord.mk p.question p.answer page_num ((part_index : Int) + 1))
      let L1 := appendRecords L stamped page_num
      let r := add_new_cards_to_deck deck L1
      (stampTime r.2.2 now, r.2.1, true)

/-- The part loop: fold `processPart` over the indexed parts, accumulating
`page_has_valid_qa`. -/
def partLoop (gen : Str → Str) (now : Str) (page_num : Int) :
    List (Nat × Str) → Ledger → List Note → Bool → Ledger × List Note × Bool
  | [], L, deck, valid => (L, deck, valid)
  | (i, part) :: rest, L, deck, valid =>
    let r := processPart gen now page_num i L deck part
    partLoop gen now page_num rest r.1 r.2.1 (valid || r.2.2)

/-- Pair list elements with consecutive `Nat` indices from `k`. -/
def enumNat (k : Nat) : List α → List (Nat × α)
  | [] => []
  | a :: t => (k, a) :: enumNat (k + 1) t

/-- Pair list elements with consecutive `Int` indices from `k`
(`enumerate(pdf.pages[start_page:], start_page)`). -/
def enumInt (k : Int) : List α → List (Int × α)
  | [] => []
  | a :: t => (k, a) :: enumInt (k + 1) t

/-- One iteration of the page loop (script.py lines 212-273): an empty page
is skipped with no state change; otherwise chunk it, run the part loop,
bump `total_pages_processed` if any part yielded pairs, and in all cases set
`last_processed_page` to this page (persisting, hence stamping, each time). -/
def processPage (gen : Str → Str) (now : Str) (page_num : Int) (text : Str)
    (L : Ledger) (deck : List Note) : Ledger × List Note :=
  if text = [] then (L, deck)
  else
    let parts := break_down_page_into_parts text 500
    let r := partLoop gen now page_num (enumNat 0 parts) L deck false
    let L1 := if r.2.2 then stampTime (incPagesProcessed r.1) now else r.1
    (stampTime (setPage L1 page_num) now, r.2.1)

/-- The page loop, also recording which page numbers were entered. -/
def pageLoop (gen : Str → Str) (now : Str) :
    List (Int × Str) → Ledger → List Note → List Int → Ledger × List Note × List Int
  | [], L, deck, procd => (L, deck, procd)
  | (pn, text) :: rest, L, deck, procd =>
    let r := processPage gen now pn text L deck
    pageLoop gen now rest r.1 r.2 (procd ++ [pn])

/-- The outcome of a run of `main`: final ledger, final deck, the number of
cards added by the initial backlog sync (script.py line 196), and the page
numbers entered by the page loop. -/
structure MainOutcome where
  ledger : Ledger
  deck : List Note
  initialCardsAdded : Nat
  processedPages : List Int
deriving Repr

/-- `main` (script.py lines 191-285) on an already-loaded ledger: sync the
backlog into a fresh deck, compute `start_page = last_processed_page + 1`,
and return immediately when `start_page >= total_pages`; otherwise run the
page loop over `pages[start_page:]` numbered from `start_page`. -/
def runMain (gen : Str → Str) (now : Str) (L0 : Ledger) (pages : List Str) :
    MainOutcome :=
  let r1 := add_new_cards_to_deck [] L0
  let L1 := r1.2.2
  let start := L1.metadata.last_processed_page + 1
  if start ≥ (pages.length : Int) then
    ⟨L1, r1.2.1, r1.1, []⟩
  else
    let pl := pageLoop gen now (enumInt start (pySliceFrom pages start)) L1 r1.2.1 []
    ⟨pl.1, pl.2.1, r1.1, pl.2.2⟩

/-- The ledger states reachable by the script's own operations, starting
from the fresh `initial_data` ledger: appending parsed records, syncing the
deck, finishing a page, and stamping the update time. -/
inductive Reachable : Ledger → Prop
  | init : Reachable initial_data
  | append (L : Ledger) (stamped : List QARecord) (page_num : Int) :
      Reachable L → Reachable (appendRecords L stamped page_num)
  | materialize (L : Ledger) (deck : List Note) :
      Reachable L → Reachable (add_new_cards_to_deck deck L).2.2
  | set_page (L : Ledger) (p : Int) : Reachable L → Reachable (setPage L p)
  | inc_pages (L : Ledger) : Reachable L → Reachable (incPagesProcessed L)
  | stamp (L : Ledger) (now : Str) : Reachable L → Reachable (stampTime L now)

/-! ## Helper lemmas -/

theorem pySliceFrom_of_nonneg (l : List α) (k : Int) (hk : 0 ≤ k) :
    pySliceFrom l k = l.drop k.toNat := by
  unfold pySliceFrom
  rw [if_pos hk]

theorem decodeRecord_encodeRecord (r : QARecord) :
    decodeRecord (encodeRecord r) = some r := rfl

theorem decodeRecList_map (l : List QARecord) :
    decodeRecList (l.map encodeRecord) = some l := by
  induction l with
  | nil => rfl
  | cons r t ih => simp [List.map, decodeRecList, decodeRecord_encodeRecord, ih]

theorem decodeMeta_encodeMeta (m : Metadata) :
    decodeMeta (encodeMeta m) = some m := rfl

theorem decodeLedger_encodeLedger (L : Ledger) :
    decodeLedger (encodeLedger L) = some L := by
  obtain ⟨m, recs⟩ := L
  have h : decodeLedger (encodeLedger ⟨m, recs⟩)
      = (match decodeMeta (encodeMeta m), decodeRecList (recs.map encodeRecord) with
         | some mm, some rr => some ⟨mm, rr⟩
         | _, _ => none) := rfl
  rw [h, decodeMeta_encodeMeta, decodeRecList_map]

theorem add_cards_count (deck : List Note) (L : Ledger) :
    (add_new_cards_to_deck deck L).1
      = (pySliceFrom L.qa_pairs (L.metadata.last_anki_card_index + 1)).length := rfl

theorem add_cards_deck (deck : List Note) (L : Ledger) :
    (add_new_cards_to_deck deck L).2.1
      = deck ++ (pySliceFrom L.qa_pairs (L.metadata.last_anki_card_index + 1)).map mkNote := rfl

theorem add_cards_records (deck : List Note) (L : Ledger) :
    (add_new_cards_to_deck deck L).2.2.qa_pairs = L.qa_pairs := rfl

theorem add_cards_lpp (deck : List Note) (L : Ledger) :
    (add_new_cards_to_deck deck L).2.2.metadata.last_processed_page
      = L.metadata.last_processed_page := by
  unfold add_new_cards_to_deck
  dsimp only
  split <;> rfl

theorem add_cards_wm (deck : List Note) (L : Ledger) :
    (add_new_cards_to_deck deck L).2.2.metadata.last_anki_card_index
      = (if (pySliceFrom L.qa_pairs (L.metadata.last_anki_card_index + 1)).length = 0
         then L.metadata.last_anki_card_index
         else L.metadata.last_anki_card_index
              + ((pySliceFrom L.qa_pairs (L.metadata.last_anki_card_index + 1)).length : Int)) := by
  unfold add_new_cards_to_deck
  dsimp only
  split <;> rfl

/-! ## Claim theorems -/

/-- C1 (counterexample): on the spec's example input the Q&A parser returns
no pair at all, not the claimed single pair.  The question-marker regex of
`"Question 1"` greedily consumes the digit, capturing an empty question;
the empty string is falsy in Python, so the line `"What is H2O?"` is
dropped (the answer-start branch requires a truthy `current_question`) and
the final emission guard also fails. -/
theorem qa_parse_example_counterexample :
    extract_questions_and_answers
        "Question 1\nWhat is H2O?\nAnswer 1\nWater\nIt is a compound.".data = []
    ∧ ([] : List QAPair)
        ≠ [⟨"What is H2O?".data, "Water It is a compound.".data⟩] :=
  ⟨rfl, by decide⟩

/-- C1 (amended): on the spec's example input the parser returns no pairs,
because the marker line `"Question 1"` captures an empty (falsy) question;
when the question text instead sits inline on the marker line
(`"Question 1: What is H2O?"`), the parser returns exactly the claimed
pair, whose answer `"Water It is a compound."` shows that continuation
lines are appended to the pending answer with a single space. -/
theorem qa_parse_example_amended :
    extract_questions_and_answers
        "Question 1\nWhat is H2O?\nAnswer 1\nWater\nIt is a compound.".data = []
    ∧ extract_questions_and_answers
        "Question 1: What is H2O?\nAnswer 1\nWater\nIt is a compound.".data
      = [⟨"What is H2O?".data, "Water It is a compound.".data⟩] :=
  ⟨rfl, rfl⟩

/-- C6 (counterexample): an assistant marker does not terminate a span —
the regex lookahead only contains the system and user markers — so on
`"<|assistant|>A<|assistant|>B"` the code returns the whole
`"A<|assistant|>B"` rather than the first inter-marker span `"A"` that the
claim predicts. -/
theorem turn_extraction_counterexample :
    extract_assistant_responses "<|assistant|>A<|assistant|>B".data
      = some "A<|assistant|>B".data
    ∧ some "A<|assistant|>B".data ≠ some "A".data :=
  ⟨rfl, by decide⟩

/-- C6 (amended): turn extraction returns the first trimmed non-empty span
between an assistant marker and the next system or user marker or end of
string (an assistant marker does not terminate a span); it returns none
when no assistant span exists or all spans are empty.  Witnessed on the
claim's own example, a marker-free input, an all-whitespace span, a span
closed by a system marker (trimmed), and consecutive assistant markers. -/
theorem turn_extraction_amended :
    extract_assistant_responses "<|assistant|>A<|user|>B<|assistant|>C".data
      = some "A".data
    ∧ extract_assistant_responses "no assistant marker here".data = none
    ∧ extract_assistant_responses "<|assistant|>   <|user|>x".data = none
    ∧ extract_assistant_responses "<|system|>X<|assistant|> Y <|system|>Z".data
      = some "Y".data
    ∧ extract_assistant_responses "<|assistant|>A<|assistant|>B".data
      = some "A<|assistant|>B".data :=
  ⟨rfl, rfl, rfl, rfl, rfl⟩

/-- C8 (counterexample): the chunker applied to the empty string emits one
part, `"."` — the empty split piece still gets the delimiter appended and
the trailing buffer `". "` is flushed stripped — not no parts. -/
theorem chunk_empty_counterexample :
    break_down_page_into_parts [] 500 = [".".data]
    ∧ [".".data] ≠ ([] : List Str) :=
  ⟨by decide, by decide⟩

/-- C8 (amended): the chunker applied to the empty string emits exactly one
part, `"."`; applied to an input that is a single sentence (the split is
`[text]`) too long for the limit (`limit < len(text) + 1`), it emits an
empty first part — flushed when the very first sentence does not fit the
empty buffer — followed by the sentence whole, with the delimiter appended
and then stripped; the sentence is never split mid-sentence. -/
theorem chunk_edge_cases :
    break_down_page_into_parts [] 500 = [".".data]
    ∧ ∀ (text : Str) (limit : Nat),
        pySplit ". ".data text = [text] →
        limit < text.length + 1 →
        break_down_page_into_parts text limit = [[], pyStrip (text ++ ". ".data)] := by
  refine ⟨by decide, ?_⟩
  intro text limit hsplit hlim
  unfold break_down_page_into_parts
  rw [hsplit]
  simp only [breakDownLoop]
  rw [if_neg (by simp; omega)]
  rw [if_neg (by simp)]
  simp [pyStrip, rstrip]

/-- Witness for the hypotheses of `chunk_edge_cases`: the single sentence
`"abcdef"` with limit 3. -/
theorem chunk_edge_cases_witness :
    break_down_page_into_parts "abcdef".data 3
      = [[], pyStrip ("abcdef".data ++ ". ".data)] :=
  chunk_edge_cases.2 "abcdef".data 3 (by decide) (by decide)

/-- C9: loading from a path holding a file whose contents fail to parse
returns (without raising — the model is total) the fresh ledger, whose
`last_processed_page` is the configured starting offset 9, with zero
counts, an empty record sequence and watermark −1, and writes that fresh
ledger to the path before returning. -/
theorem corrupt_load_recovers (fs : FS) (path : String)
    (h : fs path = some FileContent.corrupt) :
    load_or_create_qa_file fs path
      = (LoadResult.ledger initial_data,
         setFS fs path (some (.json (encodeLedger initial_data))))
    ∧ initial_data.metadata.last_processed_page = 9
    ∧ initial_data.metadata.total_pages_processed = 0
    ∧ initial_data.metadata.total_questions = 0
    ∧ initial_data.qa_pairs = []
    ∧ initial_data.metadata.last_anki_card_index = -1 := by
  refine ⟨?_, rfl, rfl, rfl, rfl, rfl⟩
  unfold load_or_create_qa_file
  rw [h]

/-- Witness for the hypothesis of `corrupt_load_recovers`: a filesystem
whose every file is unparseable. -/
theorem corrupt_load_recovers_witness :
    load_or_create_qa_file (fun _ => some FileContent.corrupt) "qa_data.json"
      = (LoadResult.ledger initial_data,
         setFS (fun _ => some FileContent.corrupt) "qa_data.json"
           (some (.json (encodeLedger initial_data))))
    ∧ initial_data.metadata.last_processed_page = 9
    ∧ initial_data.metadata.total_pages_processed = 0
    ∧ initial_data.metadata.total_questions = 0
    ∧ initial_data.qa_pairs = []
    ∧ initial_data.metadata.last_anki_card_index = -1 :=
  corrupt_load_recovers (fun _ => some FileContent.corrupt) "qa_data.json" rfl

/-- C4: persisting any ledger and then loading from the same path yields
exactly the persisted ledger — the ledger with `last_update` stamped to the
persist-time clock value — and leaves the filesystem as the persist left
it: the serialize/parse round-trip is the identity on ledger contents. -/
theorem ledger_roundtrip (L : Ledger) (fs : FS) (path : String) (now : Str) :
    load_or_create_qa_file (save_qa_data L fs path now) path
      = (LoadResult.ledger (stampTime L now), save_qa_data L fs path now) := by
  have hread : save_qa_data L fs path now path
      = some (.json (encodeLedger (stampTime L now))) := by
    unfold save_qa_data setFS
    simp
  unfold load_or_create_qa_file
  rw [hread]
  dsimp only
  rw [decodeLedger_encodeLedger]

/-- C2: on a ledger with `last_processed_page = 9`, watermark −1 and
exactly 3 records, run against a 10-page source, `main` processes no page
(`start_page = 10 ≥ total_pages`) and the initial backlog synchronization
adds exactly 3 cards to the (initially empty) deck — for any model function
and any page contents. -/
theorem resume_no_processing (gen : Str → Str) (now : Str) (L : Ledger)
    (pages : List Str)
    (h1 : L.metadata.last_processed_page = 9)
    (h2 : L.metadata.last_anki_card_index = -1)
    (h3 : L.qa_pairs.length = 3)
    (h4 : pages.length = 10) :
    (runMain gen now L pages).processedPages = []
    ∧ (runMain gen now L pages).initialCardsAdded = 3
    ∧ (runMain gen now L pages).deck.length = 3 := by
  have hslice : pySliceFrom L.qa_pairs (L.metadata.last_anki_card_index + 1)
      = L.qa_pairs := by
    rw [h2]
    norm_num [pySliceFrom]
  have hstart : (add_new_cards_to_deck [] L).2.2.metadata.last_processed_page + 1
      ≥ (pages.length : Int) := by
    rw [add_cards_lpp, h1, h4]
    norm_num
  unfold runMain
  dsimp only
  rw [if_pos hstart]
  refine ⟨rfl, ?_, ?_⟩
  · rw [add_cards_count, hslice, h3]
  · rw [add_cards_deck, hslice]
    simp [h3]

/-- Witness for the hypotheses of `resume_no_processing`: a concrete ledger
with three records and ten empty pages. -/
theorem resume_no_processing_witness :
    (runMain (fun _ => []) []
        ⟨⟨9, 0, 3, [], -1⟩,
         [⟨"q".data, "a".data, 0, 1⟩, ⟨"q".data, "a".data, 0, 2⟩,
          ⟨"q".data, "a".data, 1, 1⟩]⟩
        (List.replicate 10 [])).processedPages = []
    ∧ (runMain (fun _ => []) []
        ⟨⟨9, 0, 3, [], -1⟩,
         [⟨"q".data, "a".data, 0, 1⟩, ⟨"q".data, "a".data, 0, 2⟩,
          ⟨"q".data, "a".data, 1, 1⟩]⟩
        (List.replicate 10 [])).initialCardsAdded = 3
    ∧ (runMain (fun _ => []) []
        ⟨⟨9, 0, 3, [], -1⟩,
         [⟨"q".data, "a".data, 0, 1⟩, ⟨"q".data, "a".data, 0, 2⟩,
          ⟨"q".data, "a".data, 1, 1⟩]⟩
        (List.replicate 10 [])).deck.length = 3 :=
  resume_no_processing (fun _ => []) []
    ⟨⟨9, 0, 3, [], -1⟩,
     [⟨"q".data, "a".data, 0, 1⟩, ⟨"q".data, "a".data, 0, 2⟩,
      ⟨"q".data, "a".data, 1, 1⟩]⟩
    (List.replicate 10 []) rfl rfl rfl rfl

/-- C3 (counterexample): a ledger state with watermark −2 — an integer the
data model's invariants do not exclude — defeats idempotence: Python
slicing `qa_pairs[-1:]` re-yields the last record and the enumeration
rewinds the watermark to −1, so a second synchronization call with no new
records re-adds a card and returns 1, not 0. -/
theorem materialize_twice_counterexample :
    (add_new_cards_to_deck
        (add_new_cards_to_deck []
          (Ledger.mk (Metadata.mk 0 0 1 [] (-2)) [QARecord.mk "q".data "a".data 0 1])).2.1
        (add_new_cards_to_deck []
          (Ledger.mk (Metadata.mk 0 0 1 [] (-2)) [QARecord.mk "q".data "a".data 0 1])).2.2).1 = 1
    ∧ (1 : Nat) ≠ 0 :=
  ⟨rfl, by decide⟩

/-- C3 (amended): for every deck and every ledger whose watermark is at
least −1 — which holds in every state the script itself produces, `-1`
being the initial "no card" value — a second synchronization call with no
records appended in between returns 0 and adds no card to the deck. -/
theorem materialize_twice_zero (deck : List Note) (L : Ledger)
    (h : -1 ≤ L.metadata.last_anki_card_index) :
    (add_new_cards_to_deck (add_new_cards_to_deck deck L).2.1
        (add_new_cards_to_deck deck L).2.2).1 = 0
    ∧ (add_new_cards_to_deck (add_new_cards_to_deck deck L).2.1
        (add_new_cards_to_deck deck L).2.2).2.1
      = (add_new_cards_to_deck deck L).2.1 := by
  have hrec : (add_new_cards_to_deck deck L).2.2.qa_pairs = L.qa_pairs :=
    add_cards_records _ _
  have hwm := add_cards_wm deck L
  have hslice1 : pySliceFrom L.qa_pairs (L.metadata.last_anki_card_index + 1)
      = L.qa_pairs.drop (L.metadata.last_anki_card_index + 1).toNat :=
    pySliceFrom_of_nonneg _ _ (by omega)
  have hslice2 : pySliceFrom (add_new_cards_to_deck deck L).2.2.qa_pairs
      ((add_new_cards_to_deck deck L).2.2.metadata.last_anki_card_index + 1) = [] := by
    rw [hrec, hwm]
    by_cases hz : (pySliceFrom L.qa_pairs (L.metadata.last_anki_card_index + 1)).length = 0
    · rw [if_pos hz]
      exact List.length_eq_zero.mp hz
    · rw [if_neg hz]
      rw [hslice1, List.length_drop] at hz ⊢
      rw [pySliceFrom_of_nonneg _ _ (by omega)]
      apply List.drop_eq_nil_of_le
      omega
  constructor
  · rw [add_cards_count, hslice2]
    rfl
  · rw [add_cards_deck, hslice2]
    simp

/-- Witness for the hypothesis of `materialize_twice_zero`: the fresh
initial ledger (watermark −1) and an empty deck. -/
theorem materialize_twice_zero_witness :
    (add_new_cards_to_deck (add_new_cards_to_deck [] initial_data).2.1
        (add_new_cards_to_deck [] initial_data).2.2).1 = 0
    ∧ (add_new_cards_to_deck (add_new_cards_to_deck [] initial_data).2.1
        (add_new_cards_to_deck [] initial_data).2.2).2.1
      = (add_new_cards_to_deck [] initial_data).2.1 :=
  materialize_twice_zero [] initial_data (by decide)

theorem appendRecords_wm (L : Ledger) (stamped : List QARecord) (page_num : Int) :
    (appendRecords L stamped page_num).metadata.last_anki_card_index
      = L.metadata.last_anki_card_index := rfl

theorem appendRecords_records (L : Ledger) (stamped : List QARecord) (page_num : Int) :
    (appendRecords L stamped page_num).qa_pairs = L.qa_pairs ++ stamped := rfl

/-- The watermark bounds maintained by every operation of the script:
at least −1 and strictly below the record count. -/
theorem reachable_wm_bounds (L : Ledger) (h : Reachable L) :
    -1 ≤ L.metadata.last_anki_card_index
    ∧ L.metadata.last_anki_card_index < (L.qa_pairs.length : Int) := by
  induction h with
  | init => exact ⟨by norm_num [initial_data], by norm_num [initial_data]⟩
  | append L stamped page_num _ ih =>
    obtain ⟨ih1, ih2⟩ := ih
    rw [appendRecords_wm, appendRecords_records]
    have hlen := List.length_append L.qa_pairs stamped
    constructor
    · exact ih1
    · push_cast [hlen]
      omega
  | materialize L deck _ ih =>
    obtain ⟨ih1, ih2⟩ := ih
    rw [add_cards_wm, add_cards_records]
    by_cases hz : (pySliceFrom L.qa_pairs (L.metadata.last_anki_card_index + 1)).length = 0
    · rw [if_pos hz]
      exact ⟨ih1, ih2⟩
    · rw [if_neg hz]
      rw [pySliceFrom_of_nonneg _ _ (by omega), List.length_drop] at hz ⊢
      constructor <;> omega
  | set_page L p _ ih => exact ih
  | inc_pages L _ ih => exact ih
  | stamp L now _ ih => exact ih

/-- C5: in every ledger state reachable by the script's own operations the
watermark stays strictly below the record count; appending records never
changes the watermark; and the deck synchronizer never moves the watermark
backwards and, whenever it adds at least one card, sets it to the index of
the last record it added (`length − 1`, the records being added through the
end of the list). -/
theorem watermark_invariant (L : Ledger) (h : Reachable L) :
    L.metadata.last_anki_card_index < (L.qa_pairs.length : Int)
    ∧ (∀ (stamped : List QARecord) (page_num : Int),
        (appendRecords L stamped page_num).metadata.last_anki_card_index
          = L.metadata.last_anki_card_index)
    ∧ ∀ deck : List Note,
        L.metadata.last_anki_card_index
          ≤ (add_new_cards_to_deck deck L).2.2.metadata.last_anki_card_index
        ∧ (0 < (add_new_cards_to_deck deck L).1 →
            (add_new_cards_to_deck deck L).2.2.metadata.last_anki_card_index
              = (L.qa_pairs.length : Int) - 1) := by
  obtain ⟨h1, h2⟩ := reachable_wm_bounds L h
  refine ⟨h2, fun _ _ => rfl, fun deck => ⟨?_, ?_⟩⟩
  · rw [add_cards_wm]
    by_cases hz : (pySliceFrom L.qa_pairs (L.metadata.last_anki_card_index + 1)).length = 0
    · rw [if_pos hz]
    · rw [if_neg hz]
      omega
  · intro hpos
    rw [add_cards_count] at hpos
    rw [add_cards_wm, if_neg (by omega)]
    rw [pySliceFrom_of_nonneg _ _ (by omega), List.length_drop] at hpos ⊢
    omega

/-- Witness for the hypothesis of `watermark_invariant`: the fresh initial
ledger, reachable by construction. -/
theorem watermark_invariant_witness :
    initial_data.metadata.last_anki_card_index < (initial_data.qa_pairs.length : Int)
    ∧ (∀ (stamped : List QARecord) (page_num : Int),
        (appendRecords initial_data stamped page_num).metadata.last_anki_card_index
          = initial_data.metadata.last_anki_card_index)
    ∧ ∀ deck : List Note,
        initial_data.metadata.last_anki_card_index
          ≤ (add_new_cards_to_deck deck initial_data).2.2.metadata.last_anki_card_index
        ∧ (0 < (add_new_cards_to_deck deck initial_data).1 →
            (add_new_cards_to_deck deck initial_data).2.2.metadata.last_anki_card_index
              = (initial_data.qa_pairs.length : Int) - 1) :=
  watermark_invariant initial_data Reachable.init

theorem dropWhile_length_le (p : Char → Bool) :
    ∀ l : Str, (l.dropWhile p).length ≤ l.length := by
  intro l
  induction l with
  | nil => simp
  | cons x xs ih =>
    rw [List.dropWhile_cons]
    split
    · exact le_trans ih (by simp)
    · simp

theorem rstrip_append_dot_space (u : Str) : rstrip (u ++ ". ".data) = u ++ ['.'] := by
  have hsep : ". ".data = ['.', ' '] := rfl
  unfold rstrip
  rw [hsep]
  have h2 : (u ++ ['.', ' ']).reverse = ' ' :: '.' :: u.reverse := by
    simp
  rw [h2]
  rw [List.dropWhile_cons_of_pos (by decide), List.dropWhile_cons_of_neg (by decide)]
  simp

theorem pyStrip_append_sep_length (u : Str) :
    (pyStrip (u ++ ". ".data)).length ≤ u.length + 1 := by
  unfold pyStrip
  rw [rstrip_append_dot_space]
  calc ((u ++ ['.']).dropWhile isPySpace).length
      ≤ (u ++ ['.']).length := dropWhile_length_le _ _
    _ = u.length + 1 := by simp

/-- The part flushed from a chunker buffer satisfying the loop invariant is
within the limit or is an over-long single sentence (delimiter appended,
stripped). -/
theorem emitPart_good (limit : Nat) (S : List Str) (current : Str)
    (hinv : current = [] ∨
      ((∃ u, current = u ++ ". ".data) ∧
       (current.length ≤ limit + 1 ∨
        ∃ s ∈ S, current = s ++ ". ".data ∧ limit < s.length + 1))) :
    (pyStrip current).length ≤ limit ∨
    ∃ s ∈ S, pyStrip current = pyStrip (s ++ ". ".data) ∧ limit < s.length + 1 := by
  rcases hinv with h | ⟨⟨u, hu⟩, hlen | ⟨s, hs, hcur, hlong⟩⟩
  · left
    subst h
    simp [pyStrip, rstrip]
  · left
    subst hu
    have h1 := pyStrip_append_sep_length u
    have h2 : (u ++ ". ".data).length = u.length + 2 := by simp
    omega
  · right
    exact ⟨s, hs, by rw [hcur], hlong⟩

/-- Loop invariant proof for the chunker: every emitted part is within the
limit or is an over-long single sentence of `S` with the delimiter appended
and stripped. -/
theorem breakDownLoop_parts_good (limit : Nat) (S : List Str) :
    ∀ (ss : List Str) (current : Str) (parts : List Str),
      (∀ s ∈ ss, s ∈ S) →
      (current = [] ∨
        ((∃ u, current = u ++ ". ".data) ∧
         (current.length ≤ limit + 1 ∨
          ∃ s ∈ S, current = s ++ ". ".data ∧ limit < s.length + 1))) →
      (∀ p ∈ parts, p.length ≤ limit ∨
        ∃ s ∈ S, p = pyStrip (s ++ ". ".data) ∧ limit < s.length + 1) →
      ∀ p ∈ breakDownLoop limit ss current parts,
        p.length ≤ limit ∨
        ∃ s ∈ S, p = pyStrip (s ++ ". ".data) ∧ limit < s.length + 1 := by
  intro ss
  induction ss with
  | nil =>
    intro current parts hsub hinv hparts p hp
    rw [breakDownLoop] at hp
    split at hp
    · exact hparts p hp
    · rcases List.mem_append.mp hp with hmem | hmem
      · exact hparts p hmem
      · have hpe : p = pyStrip current := by simpa using hmem
        subst hpe
        exact emitPart_good limit S current hinv
  | cons s rest ih =>
    intro current parts hsub hinv hparts p hp
    rw [breakDownLoop] at hp
    split at hp
    case isTrue hle =>
      refine ih (current ++ s ++ ". ".data) parts
        (fun x hx => hsub x (List.mem_cons_of_mem s hx)) ?_ hparts p hp
      right
      constructor
      · exact ⟨current ++ s, by rw [List.append_assoc]⟩
      · left
        have : (current ++ s ++ ". ".data).length = current.length + s.length + 2 := by
          simp
          omega
        omega
    case isFalse hgt =>
      refine ih (s ++ ". ".data) (parts ++ [pyStrip current])
        (fun x hx => hsub x (List.mem_cons_of_mem s hx)) ?_ ?_ p hp
      · right
        refine ⟨⟨s, rfl⟩, ?_⟩
        by_cases hsl : s.length + 1 ≤ limit
        · left
          have : (s ++ ". ".data).length = s.length + 2 := by simp
          omega
        · right
          exact ⟨s, hsub s (List.mem_cons_self s rest), rfl, by omega⟩
      · intro q hq
        rcases List.mem_append.mp hq with hmem | hmem
        · exact hparts q hmem
        · have hqe : q = pyStrip current := by simpa using hmem
          subst hqe
          exact emitPart_good limit S current hinv

/-- C7 (amended): every part emitted by the chunker has length at most
`limit`, except a part that is a single sentence `s` of the split with
`limit < len(s) + 1` — the guard compares `len + 1` against the limit but
appends the two-character delimiter `". "`, so the boundary sentence of
length exactly `limit` also produces an over-long part; such a part is the
sentence with the delimiter appended and then stripped. -/
theorem chunk_length_bound (text : Str) (limit : Nat) (part : Str)
    (h : part ∈ break_down_page_into_parts text limit) :
    part.length ≤ limit ∨
    ∃ s ∈ pySplit ". ".data text,
      part = pyStrip (s ++ ". ".data) ∧ limit < s.length + 1 :=
  breakDownLoop_parts_good limit (pySplit ". ".data text) (pySplit ". ".data text)
    [] [] (fun _ hs => hs) (Or.inl rfl) (by simp) part h

/-- Witness for the hypothesis of `chunk_length_bound`: the single part the
chunker produces on `"Hi. There."` with the default limit. -/
theorem chunk_length_bound_witness :
    ("Hi. There..".data).length ≤ 500 ∨
    ∃ s ∈ pySplit ". ".data "Hi. There.".data,
      "Hi. There..".data = pyStrip (s ++ ". ".data) ∧ 500 < s.length + 1 :=
  chunk_length_bound "Hi. There.".data 500 "Hi. There..".data (by decide)

/-- C7 (counterexample): with limit 1 and input `"a"` the chunker emits the
part `"a."` of length 2 > 1, yet the only sentence of the split, `"a"`, is
not longer than the limit — the claim's exception does not cover it. -/
theorem chunk_length_counterexample :
    "a.".data ∈ break_down_page_into_parts "a".data 1
    ∧ ¬ (("a.".data : Str).length ≤ 1 ∨
         ∃ s ∈ pySplit ". ".data "a".data,
           "a.".data = pyStrip (s ++ ". ".data) ∧ 1 < s.length) := by
  constructor
  · decide
  · decide

theorem dropWhile_head_not (p : Char → Bool) :
    ∀ (l : Str) (c : Char) (t : Str), l.dropWhile p = c :: t → p c = false := by
  intro l
  induction l with
  | nil =>
    intro c t h
    simp [List.dropWhile] at h
  | cons x xs ih =>
    intro c t h
    rw [List.dropWhile_cons] at h
    by_cases hx : p x
    · rw [if_pos hx] at h
      exact ih c t h
    · rw [if_neg hx] at h
      injection h with h1 _
      subst h1
      simpa using hx

theorem dropWhile_ne_nil_of_exists (p : Char → Bool) :
    ∀ l : Str, (∃ c ∈ l, p c = false) → l.dropWhile p ≠ [] := by
  intro l
  induction l with
  | nil =>
    intro h
    simp at h
  | cons x xs ih =>
    intro h
    rw [List.dropWhile_cons]
    by_cases hx : p x
    · rw [if_pos hx]
      apply ih
      obtain ⟨c, hc, hcf⟩ := h
      rcases List.mem_cons.mp hc with rfl | hmem
      · rw [hx] at hcf
        cases hcf
      · exact ⟨c, hmem, hcf⟩
    · rw [if_neg hx]
      simp

theorem exists_mem_dropWhile (p : Char → Bool) :
    ∀ l : Str, (∃ c ∈ l, p c = false) → ∃ c ∈ l.dropWhile p, p c = false := by
  intro l
  induction l with
  | nil =>
    intro h
    simp at h
  | cons x xs ih =>
    intro h
    rw [List.dropWhile_cons]
    by_cases hx : p x
    · rw [if_pos hx]
      apply ih
      obtain ⟨c, hc, hcf⟩ := h
      rcases List.mem_cons.mp hc with rfl | hmem
      · rw [hx] at hcf
        cases hcf
      · exact ⟨c, hmem, hcf⟩
    · rw [if_neg hx]
      exact h

theorem pyStrip_ne_nil (l : Str) (h : ∃ c ∈ l, isPySpace c = false) :
    pyStrip l ≠ [] := by
  unfold pyStrip rstrip
  apply dropWhile_ne_nil_of_exists
  have h1 : ∃ c ∈ l.reverse, isPySpace c = false := by
    simpa [List.mem_reverse] using h
  have h2 := exists_mem_dropWhile isPySpace l.reverse h1
  simpa [List.mem_reverse] using h2

theorem pyStrip_head_not_space (l : Str) (c : Char) (t : Str)
    (h : pyStrip l = c :: t) : isPySpace c = false := by
  unfold pyStrip at h
  exact dropWhile_head_not isPySpace (rstrip l) c t h

theorem consumeMarkerTail_head (r : Str) (c : Char) (t : Str)
    (h : consumeMarkerTail r = c :: t) : isPySpace c = false := by
  unfold consumeMarkerTail at h
  exact dropWhile_head_not isPySpace _ c t h

theorem matchQA_head (m line cap : Str) (c : Char) (t : Str)
    (h1 : matchQA m line = some cap) (h2 : cap = c :: t) : isPySpace c = false := by
  unfold matchQA at h1
  by_cases hc : (line.take m.length).map Char.toLower = m
  · rw [if_pos hc] at h1
    injection h1 with h1
    subst h2
    exact consumeMarkerTail_head _ _ _ h1
  · rw [if_neg hc] at h1
    cases h1

/-- Any pair emitted by the parser's truthiness-guarded emission is made of
stripped strings that still contain a non-whitespace character, hence are
non-empty. -/
theorem emitIf_good (cq ca : Option Str)
    (hq : ∀ q, cq = some q → q ≠ [] → ∃ c ∈ q, isPySpace c = false)
    (ha : ∀ a, ca = some a → a ≠ [] → ∃ c ∈ a, isPySpace c = false) :
    ∀ p ∈ emitIf cq ca, p.question ≠ [] ∧ p.answer ≠ [] := by
  intro p hp
  unfold emitIf at hp
  split at hp
  case h_1 c q d a =>
    have hpe : p = ⟨pyStrip (c :: q), pyStrip (d :: a)⟩ := by simpa using hp
    subst hpe
    constructor
    · exact pyStrip_ne_nil _ (hq (c :: q) rfl (by simp))
    · exact pyStrip_ne_nil _ (ha (d :: a) rfl (by simp))
  case h_2 =>
    simp at hp

/-- Loop invariant proof for the Q&A parser: if the pending question and
answer, whenever truthy, contain a non-whitespace character, every pair the
loop ever emits has a non-empty question and answer. -/
theorem qaLoop_pairs_good :
    ∀ (lines : List Str) (cq ca : Option Str) (acc : List QAPair),
      (∀ q, cq = some q → q ≠ [] → ∃ c ∈ q, isPySpace c = false) →
      (∀ a, ca = some a → a ≠ [] → ∃ c ∈ a, isPySpace c = false) →
      (∀ p ∈ acc, p.question ≠ [] ∧ p.answer ≠ []) →
      ∀ p ∈ qaLoop lines cq ca acc, p.question ≠ [] ∧ p.answer ≠ [] := by
  intro lines
  induction lines with
  | nil =>
    intro cq ca acc hq ha hacc p hp
    rw [qaLoop.eq_def] at hp
    rcases List.mem_append.mp hp with h | h
    · exact hacc p h
    · exact emitIf_good cq ca hq ha p h
  | cons l rest ih =>
    intro cq ca acc hq ha hacc p hp
    rw [qaLoop.eq_def] at hp
    dsimp only at hp
    by_cases hline : pyStrip l = []
    · rw [if_pos hline] at hp
      exact ih cq ca acc hq ha hacc p hp
    · rw [if_neg hline] at hp
      rcases hq1 : matchQA "question".data (pyStrip l) with _ | cap
      · rw [hq1] at hp
        dsimp only at hp
        rcases ha1 : matchQA "answer".data (pyStrip l) with _ | cap
        · rw [ha1] at hp
          dsimp only at hp
          rcases hca : ca with _ | a
          · rw [hca] at hp
            dsimp only at hp
            by_cases htr : truthy cq = true
            · rw [if_pos htr] at hp
              refine ih cq (some (pyStrip l)) acc hq ?_ hacc p hp
              intro a hae _
              have he : pyStrip l = a := by injection hae
              subst he
              rcases hps : pyStrip l with _ | ⟨c, t⟩
              · exact absurd hps hline
              · exact ⟨c, by simp, pyStrip_head_not_space l c t hps⟩
            · rw [if_neg htr] at hp
              refine ih cq none acc hq ?_ hacc p hp
              intro a hae
              simp at hae
          · rw [hca] at hp
            dsimp only at hp
            refine ih cq (some (a ++ ' ' :: pyStrip l)) acc hq ?_ hacc p hp
            intro a' hae _
            have he : a ++ ' ' :: pyStrip l = a' := by injection hae
            subst he
            rcases hps : pyStrip l with _ | ⟨c, t⟩
            · exact absurd hps hline
            · exact ⟨c, by simp, pyStrip_head_not_space l c t hps⟩
        · rw [ha1] at hp
          dsimp only at hp
          refine ih cq (some cap) acc hq ?_ hacc p hp
          intro a hae han
          have he : cap = a := by injection hae
          subst he
          cases cap with
          | nil => exact absurd rfl han
          | cons c t => exact ⟨c, by simp, matchQA_head _ _ (c :: t) c t ha1 rfl⟩
      · rw [hq1] at hp
        dsimp only at hp
        refine ih (some cap) none (acc ++ emitIf cq ca) ?_ ?_ ?_ p hp
        · intro q hqe hqn
          have he : cap = q := by injection hqe
          subst he
          cases cap with
          | nil => exact absurd rfl hqn
          | cons c t => exact ⟨c, by simp, matchQA_head _ _ (c :: t) c t hq1 rfl⟩
        · intro a hae
          simp at hae
        · intro p' hp'
          rcases List.mem_append.mp hp' with h | h
          · exact hacc p' h
          · exact emitIf_good cq ca hq ha p' h

/-- C10: every pair the Q&A parser emits has a non-empty question and a
non-empty answer — emission is guarded by Python truthiness of both
pending strings, whose stripped forms are shown non-empty — so in
particular a question-marker line with an empty remainder (a falsy
`current_question`) never contributes a pair, even when answer lines
follow it. -/
theorem parsed_pairs_nonempty (text : Str) (p : QAPair)
    (h : p ∈ extract_questions_and_answers text) :
    p.question ≠ [] ∧ p.answer ≠ [] := by
  unfold extract_questions_and_answers at h
  split at h
  · simp at h
  · refine qaLoop_pairs_good (splitChar '\n' text) none none [] ?_ ?_ (by simp) p h
    · intro q hq
      simp at hq
    · intro a ha
      simp at ha

/-- Witness for the hypothesis of `parsed_pairs_nonempty`: the pair parsed
from `"Question: Q\nAnswer: A"`. -/
theorem parsed_pairs_nonempty_witness :
    (QAPair.mk "Q".data "A".data).question ≠ []
    ∧ (QAPair.mk "Q".data "A".data).answer ≠ [] :=
  parsed_pairs_nonempty "Question: Q\nAnswer: A".data
    ⟨"Q".data, "A".data⟩ (by decide)
